import Mathlib

/-!
A shallow embedding of the `bella` engine's time and input modules
(`src/time.rs`, `src/input.rs`), together with proofs of the specified
properties of `Time::<Virtual>::advance_with_raw_delta`,
`Time::<Real>::update_with_instant`, `recieve_inputs` and the key queries.

Modelling conventions:
* `Duration` is the exact count of nanoseconds as a `Nat` (Rust's
  `std::time::Duration` is `secs : u64, nanos : u32 < 10^9`; the `u64`
  bound surfaces only through the `from_secs_f64` overflow check, which is
  modelled below).
* `f64` values reaching the clock are modelled by `F64`: a finite rational
  or one of the special values `NaN`, `+inf`, `-inf`.  The operations the
  clock performs on them (comparison with `1.0`, multiplication by a
  nonnegative duration, the sign/overflow/NaN checks of
  `Duration::from_secs_f64`) are exact on this carrier for every input the
  theorems touch; rounding of finite `f64` arithmetic is not modelled.
* A Rust panic is `none`.
* `Instant` is a `Nat` timestamp in nanoseconds; `Instant` subtraction
  saturates at zero exactly like `Nat` subtraction.
-/

namespace Bella

/-- Nanosecond count of a `std::time::Duration`. -/
abbrev Duration := Nat

/-- Embedding of `Duration::as_secs_f64`, as an exact rational. -/
def Duration.as_secs (d : Duration) : Rat := (d : Rat) / 1000000000

/-- Model of an `f64` value used by the virtual clock: finite rational or a
special value. -/
inductive F64 where
| finite (q : Rat)
| nan
| inf
| neginf
deriving DecidableEq

/-- IEEE equality (`==` on `f64`): `NaN` is equal to nothing, including
itself; infinities equal themselves; finite values compare exactly. -/
def F64.beq : F64 → F64 → Bool
| .finite a, .finite b => a == b
| .inf, .inf => true
| .neginf, .neginf => true
| _, _ => false

/-- The IEEE product `rhs * s` computed inside `Duration::mul_f64`, where
`s = self.as_secs_f64()` is a nonnegative finite value: `NaN` absorbs,
`±inf * 0 = NaN`, `±inf` times a positive value keeps its sign, finite
products are exact. -/
def F64.mulSecs : F64 → Rat → F64
| .finite q, s => .finite (q * s)
| .nan, _ => .nan
| .inf, s => if s = 0 then .nan else .inf
| .neginf, s => if s = 0 then .nan else .neginf

/-- Embedding of `Duration::from_secs_f64` (via `try_from_secs`): `NaN` and magnitudes of
at least `2^64` seconds are rejected as `OverflowOrNan`, then strictly
negative values as `Negative`; either rejection panics (`none`).  Rust
accepts `-0.0`, whose rational counterpart is `0`.  Accepted values are
converted to the nearest nanosecond. -/
def Duration.from_secs_f64 : F64 → Option Duration
| .finite q =>
    if q < -(2 ^ 64 : Rat) ∨ (2 ^ 64 : Rat) ≤ q then none
    else if q < 0 then none
    else some (round (q * 1000000000)).toNat
| _ => none

/-- Embedding of `Duration::mul_f64`: `Duration::from_secs_f64(rhs * self.as_secs_f64())`. -/
def Duration.mul_f64 (d : Duration) (rhs : F64) : Option Duration :=
  Duration.from_secs_f64 (rhs.mulSecs d.as_secs)

/-- Structure `Time<T>` from `src/time.rs`: a context plus the shared clock fields. -/
structure Time (T : Type) where
  context : T
  wrap_period : Duration
  delta : Duration
  delta_seconds : Rat

/-- Embedding of `Time::advance_by`: store the delta and refresh the seconds cache. -/
def Time.advance_by {T : Type} (t : Time T) (delta : Duration) : Time T :=
  { t with delta := delta, delta_seconds := delta.as_secs }

/-- Embedding of `Time::<T>::default()`: `DEFAULT_WRAP_PERIOD` is 3600 s, delta zero. -/
def Time.mkDefault {T : Type} (ctx : T) : Time T :=
  { context := ctx, wrap_period := 3600000000000, delta := 0, delta_seconds := 0 }

/-- The `Virtual` clock context. -/
structure Virtual where
  max_delta : Duration
  paused : Bool
  relative_speed : F64
  effective_speed : F64
deriving DecidableEq

/-- Embedding of `Virtual::default()`: `DEFAULT_MAX_DELTA` is 250 ms, unpaused, speed 1. -/
def Virtual.default : Virtual :=
  { max_delta := 250000000, paused := false,
    relative_speed := .finite 1, effective_speed := .finite 1 }

/-- Embedding of `Time::<Virtual>::default()`. -/
def Time.defaultVirtual : Time Virtual := Time.mkDefault Virtual.default

/-- Clamp step: `let clamped_delta = if raw_delta > max_delta { max_delta } else { raw_delta }`. -/
def Time.clamped (t : Time Virtual) (raw_delta : Duration) : Duration :=
  if t.context.max_delta < raw_delta then t.context.max_delta else raw_delta

/-- Speed selection step: `let effective_speed = if paused { 0.0 } else { relative_speed }`. -/
def Time.effSpeed (t : Time Virtual) : F64 :=
  if t.context.paused then F64.finite 0 else t.context.relative_speed

/-- Scaling step: `let delta = if effective_speed != 1.0 { clamped_delta.mul_f64(effective_speed) }
else { clamped_delta }`; `none` when `mul_f64` panics. -/
def Time.scaledDelta (t : Time Virtual) (raw_delta : Duration) : Option Duration :=
  if !(t.effSpeed.beq (F64.finite 1)) then (t.clamped raw_delta).mul_f64 t.effSpeed
  else some (t.clamped raw_delta)

/-- Embedding of `Time::<Virtual>::advance_with_raw_delta`: clamp, compute the effective
speed, scale unless at exactly normal speed, store the effective speed and
advance.  A panic inside `mul_f64` yields `none` before any field is
written. -/
def Time.advance_with_raw_delta (t : Time Virtual) (raw_delta : Duration) :
    Option (Time Virtual) :=
  (t.scaledDelta raw_delta).map (fun delta =>
    Time.advance_by
      { t with context := { t.context with effective_speed := t.effSpeed } } delta)

/-- The `Real` clock context (`Instant`s as `Nat` timestamps). -/
structure Real where
  startup : Nat
  first_update : Option Nat
  last_update : Option Nat
deriving DecidableEq

/-- Embedding of `Real::default()` given a startup instant. -/
def Real.mkContext (startup : Nat) : Real :=
  { startup := startup, first_update := none, last_update := none }

/-- Embedding of `Time::<Real>::new(startup)`. -/
def Time.defaultReal (startup : Nat) : Time Real := Time.mkDefault (Real.mkContext startup)

/-- Embedding of `Time::<Real>::update_with_instant`: the first call records the instant
as both first and last update and returns without advancing; later calls
advance by `instant - last_update` and update `last_update`. -/
def Time.update_with_instant (t : Time Real) (instant : Nat) : Time Real :=
  match t.context.last_update with
  | none =>
      { t with context :=
          { t.context with first_update := some instant, last_update := some instant } }
  | some last_update =>
      let delta := instant - last_update
      let t1 := t.advance_by delta
      { t1 with context := { t1.context with last_update := some instant } }

/-- Mouse buttons, mirroring `winit::event::MouseButton`. -/
inductive MouseButton where
| left
| right
| middle
| back
| forward
| other (code : Nat)
deriving DecidableEq, BEq

/-- A two-dimensional vector (`kurbo::Vec2`), coordinates as exact rationals. -/
structure Vec2 where
  x : Rat
  y : Rat
deriving DecidableEq

/-- Logical key codes (`winit::keyboard::KeyCode`), abstracted as naturals. -/
abbrev KeyCode := Nat

/-- Physical keys (`winit::keyboard::PhysicalKey`): either a recognised
`Code` or an `Unidentified` platform scancode. -/
inductive PhysicalKey where
| code (kc : KeyCode)
| unidentified (raw : Nat)
deriving DecidableEq

/-- Structure `Input` from `src/input.rs`.  The `crossbeam` queues are FIFO
lists (head popped first, pushes appended at the tail). -/
structure Input where
  key_down_queue : List Nat
  key_up_queue : List Nat
  mouse_pos_queue : List Vec2
  mouse_down_queue : List MouseButton
  mouse_up_queue : List MouseButton
  key_down : List Nat
  key_up : List Nat
  key_press : List Nat
  mouse_pos : Vec2
  mouse_down : List MouseButton
  mouse_up : List MouseButton
  mouse_press : List MouseButton
deriving DecidableEq

/-- Embedding of `Input::default()`: empty queues and lists, origin cursor. -/
def Input.default : Input :=
  { key_down_queue := [], key_up_queue := [], mouse_pos_queue := [],
    mouse_down_queue := [], mouse_up_queue := [],
    key_down := [], key_up := [], key_press := [],
    mouse_pos := { x := 0, y := 0 },
    mouse_down := [], mouse_up := [], mouse_press := [] }

/-- Down-queue drain loop of `recieve_inputs`: pop each element, push it onto
the down list, and push it onto the press list only when not already a
member. -/
def drainDownQueue {α : Type} [BEq α] : List α → List α → List α → List α × List α
| [], downs, press => (downs, press)
| k :: rest, downs, press =>
    drainDownQueue rest (downs ++ [k]) (if press.contains k then press else press ++ [k])

/-- Up-queue drain loop of `recieve_inputs`: pop each element, push it onto
the up list, and retain only the press entries different from it. -/
def drainUpQueue {α : Type} [BEq α] : List α → List α → List α → List α × List α
| [], ups, press => (ups, press)
| k :: rest, ups, press =>
    drainUpQueue rest (ups ++ [k]) (press.filter (fun x => x != k))

/-- Mouse-position drain loop of `recieve_inputs`: every queued position is
stored in turn, so the last one (if any) wins. -/
def drainPosQueue : List Vec2 → Vec2 → Vec2
| [], p => p
| v :: rest, _ => drainPosQueue rest v

/-- Embedding of `recieve_inputs` (the frame latch): clear the transition
lists, then drain the key-down, key-up, mouse-position, mouse-down and
mouse-up queues in that order. -/
def recieve_inputs (input : Input) : Input :=
  let kd := drainDownQueue input.key_down_queue [] input.key_press
  let ku := drainUpQueue input.key_up_queue [] kd.2
  let mpos := drainPosQueue input.mouse_pos_queue input.mouse_pos
  let md := drainDownQueue input.mouse_down_queue [] input.mouse_press
  let mu := drainUpQueue input.mouse_up_queue [] md.2
  { key_down_queue := [], key_up_queue := [], mouse_pos_queue := [],
    mouse_down_queue := [], mouse_up_queue := [],
    key_down := kd.1, key_up := ku.1, key_press := ku.2,
    mouse_pos := mpos, mouse_down := md.1, mouse_up := mu.1, mouse_press := mu.2 }

/-- Embedding of `get_keycode_from_physical_key`: a `Code` yields its key
code; anything else hits `panic!("KeyCode not found!")`, i.e. `none`. -/
def get_keycode_from_physical_key : PhysicalKey → Option KeyCode
| .code kc => some kc
| .unidentified _ => none

/-- Query loop shared by `is_key_down` / `is_key_up` / `is_key_pressed`:
translate each stored raw code through `from_scancode` and
`get_keycode_from_physical_key`, returning `true` on the first match; a
translation panic aborts the query (`none`). -/
def keyQueryLoop (from_scancode : Nat → PhysicalKey) (key : KeyCode) :
    List Nat → Option Bool
| [] => some false
| k :: rest =>
    match get_keycode_from_physical_key (from_scancode k) with
    | none => none
    | some kc => if kc = key then some true else keyQueryLoop from_scancode key rest

/-- Embedding of `Input::is_key_down`, parametrised by the platform's
`KeyCode::from_scancode` table. -/
def Input.is_key_down (from_scancode : Nat → PhysicalKey) (i : Input)
    (key : KeyCode) : Option Bool :=
  keyQueryLoop from_scancode key i.key_down

/-- Embedding of `Input::is_key_up`. -/
def Input.is_key_up (from_scancode : Nat → PhysicalKey) (i : Input)
    (key : KeyCode) : Option Bool :=
  keyQueryLoop from_scancode key i.key_up

/-- Embedding of `Input::is_key_pressed`. -/
def Input.is_key_pressed (from_scancode : Nat → PhysicalKey) (i : Input)
    (key : KeyCode) : Option Bool :=
  keyQueryLoop from_scancode key i.key_press

/-- Embedding of `Input::set_key_down`: push onto the key-down queue. -/
def Input.set_key_down (i : Input) (key : Nat) : Input :=
  { i with key_down_queue := i.key_down_queue ++ [key] }

/-- Embedding of `Input::set_key_up`: push onto the key-up queue. -/
def Input.set_key_up (i : Input) (key : Nat) : Input :=
  { i with key_up_queue := i.key_up_queue ++ [key] }

/-! ## Basic lemmas about the virtual clock -/

lemma beq_finite_one_iff (x : F64) : x.beq (F64.finite 1) = true ↔ x = F64.finite 1 := by
  cases x <;> simp [F64.beq]

lemma mul_f64_finite (d : Duration) (q : Rat) :
    d.mul_f64 (F64.finite q) =
      if q * d.as_secs < -(2 ^ 64 : Rat) ∨ (2 ^ 64 : Rat) ≤ q * d.as_secs then none
      else if q * d.as_secs < 0 then none
      else some (round (q * (d : Rat))).toNat := by
  have h : q * d.as_secs * 1000000000 = q * (d : Rat) := by
    rw [Duration.as_secs, mul_assoc, div_mul_cancel₀]
    norm_num
  simp only [Duration.mul_f64, F64.mulSecs, Duration.from_secs_f64, h]

lemma mul_f64_nan (d : Duration) : d.mul_f64 F64.nan = none := rfl

lemma mul_f64_inf (d : Duration) : d.mul_f64 F64.inf = none := by
  simp only [Duration.mul_f64, F64.mulSecs]
  split <;> rfl

lemma mul_f64_neginf (d : Duration) : d.mul_f64 F64.neginf = none := by
  simp only [Duration.mul_f64, F64.mulSecs]
  split <;> rfl

lemma clamped_le_max (t : Time Virtual) (raw : Duration) :
    t.clamped raw ≤ t.context.max_delta := by
  rw [Time.clamped]
  split
  · exact Nat.le_refl _
  · next h => exact Nat.le_of_not_lt h

lemma clamped_eq_min (t : Time Virtual) (raw : Duration) :
    t.clamped raw = min raw t.context.max_delta := by
  rw [Time.clamped]
  rcases le_or_lt raw t.context.max_delta with h | h
  · rw [if_neg (Nat.not_lt.mpr h), min_eq_left h]
  · rw [if_pos h, min_eq_right (le_of_lt h)]

lemma round_le_natCast {x : Rat} {n : Nat} (h : x ≤ (n : Rat)) : round x ≤ (n : Int) := by
  have h2 : x + 1 / 2 ≤ (n : Rat) + 1 / 2 := by linarith
  calc round x = ⌊x + 1 / 2⌋ := round_eq x
  _ ≤ ⌊(n : Rat) + 1 / 2⌋ := Int.floor_mono h2
  _ = round ((n : Rat)) := (round_eq _).symm
  _ = (n : Int) := round_natCast n

lemma advance_eq_some_iff (t : Time Virtual) (raw : Duration) (t' : Time Virtual) :
    t.advance_with_raw_delta raw = some t' ↔
      ∃ d, t.scaledDelta raw = some d ∧
        Time.advance_by
          { t with context := { t.context with effective_speed := t.effSpeed } } d = t' := by
  simp [Time.advance_with_raw_delta, Option.map_eq_some']

lemma effSpeed_of_paused {t : Time Virtual} (hp : t.context.paused = true) :
    t.effSpeed = F64.finite 0 := by
  simp [Time.effSpeed, hp]

lemma effSpeed_of_unpaused {t : Time Virtual} (hp : t.context.paused = false) :
    t.effSpeed = t.context.relative_speed := by
  simp [Time.effSpeed, hp]

lemma scaledDelta_of_effZero {t : Time Virtual} (raw : Duration)
    (he : t.effSpeed = F64.finite 0) : t.scaledDelta raw = some 0 := by
  have hb : t.effSpeed.beq (F64.finite 1) = false := by rw [he]; decide
  rw [Time.scaledDelta, hb, he]
  simp only [Bool.not_false, if_true]
  rw [mul_f64_finite]
  norm_num

lemma scaledDelta_of_effOne {t : Time Virtual} (raw : Duration)
    (he : t.effSpeed = F64.finite 1) : t.scaledDelta raw = some (t.clamped raw) := by
  have hb : t.effSpeed.beq (F64.finite 1) = true := by rw [he]; decide
  rw [Time.scaledDelta, hb]
  simp

lemma scaledDelta_of_finite_ne_one {t : Time Virtual} (raw : Duration) {q : Rat}
    (he : t.effSpeed = F64.finite q) (h1 : q ≠ 1) :
    t.scaledDelta raw = (t.clamped raw).mul_f64 (F64.finite q) := by
  have hb : t.effSpeed.beq (F64.finite 1) = false := by
    rw [he]
    simp [F64.beq, h1]
  rw [Time.scaledDelta, hb, he]
  simp

lemma as_secs_nonneg (d : Duration) : 0 ≤ d.as_secs := by
  rw [Duration.as_secs]
  positivity

lemma as_secs_pos {d : Duration} (h : d ≠ 0) : 0 < d.as_secs := by
  rw [Duration.as_secs]
  have : 0 < (d : Rat) := by exact_mod_cast Nat.pos_of_ne_zero h
  positivity

/-! ## Concrete clock states used by counterexamples and witnesses -/

/-- A default virtual clock that has been paused. -/
def pausedTime : Time Virtual :=
  { Time.defaultVirtual with context := { Virtual.default with paused := true } }

/-- The state `pausedTime` reaches after `advance_with_raw_delta 5`. -/
def pausedAdvanced : Time Virtual :=
  Time.advance_by
    { pausedTime with context := { pausedTime.context with effective_speed := pausedTime.effSpeed } } 0

lemma pausedTime_advance : pausedTime.advance_with_raw_delta 5 = some pausedAdvanced := by
  rw [Time.advance_with_raw_delta, scaledDelta_of_effZero 5 (effSpeed_of_paused rfl)]
  rfl

/-- A default virtual clock running at relative speed `2.0`. -/
def speedTwo : Time Virtual :=
  { Time.defaultVirtual with context := { Virtual.default with relative_speed := F64.finite 2 } }

/-- The state `speedTwo` reaches after `advance_with_raw_delta 250000000`. -/
def speedTwoAdvanced : Time Virtual :=
  Time.advance_by
    { speedTwo with context := { speedTwo.context with effective_speed := speedTwo.effSpeed } }
    500000000

lemma speedTwo_advance :
    speedTwo.advance_with_raw_delta 250000000 = some speedTwoAdvanced := by
  have he : speedTwo.effSpeed = F64.finite 2 := rfl
  have hc : speedTwo.clamped 250000000 = 250000000 := rfl
  have hs : speedTwo.scaledDelta 250000000 = some 500000000 := by
    rw [scaledDelta_of_finite_ne_one 250000000 he (by norm_num), mul_f64_finite, hc]
    rw [Duration.as_secs]
    norm_num [round_eq]
    decide
  rw [Time.advance_with_raw_delta, hs]
  rfl

/-- A default virtual clock running at relative speed `0.0` while unpaused. -/
def speedZero : Time Virtual :=
  { Time.defaultVirtual with context := { Virtual.default with relative_speed := F64.finite 0 } }

/-- The state `speedZero` reaches after `advance_with_raw_delta 0`. -/
def speedZeroAdvanced : Time Virtual :=
  Time.advance_by
    { speedZero with context := { speedZero.context with effective_speed := speedZero.effSpeed } } 0

lemma speedZero_advance : speedZero.advance_with_raw_delta 0 = some speedZeroAdvanced := by
  rw [Time.advance_with_raw_delta, @scaledDelta_of_effZero speedZero 0 rfl]
  rfl

/-- A default virtual clock running at relative speed `-1.0`. -/
def negSpeed : Time Virtual :=
  { Time.defaultVirtual with
    context := { Virtual.default with relative_speed := F64.finite (-1) } }

/-- The state `negSpeed` reaches after `advance_with_raw_delta 0`. -/
def negSpeedAdvanced : Time Virtual :=
  Time.advance_by
    { negSpeed with context := { negSpeed.context with effective_speed := negSpeed.effSpeed } } 0

lemma negSpeed_advance : negSpeed.advance_with_raw_delta 0 = some negSpeedAdvanced := by
  have he : negSpeed.effSpeed = F64.finite (-1) := rfl
  have hc : negSpeed.clamped 0 = 0 := rfl
  have hs : negSpeed.scaledDelta 0 = some 0 := by
    rw [scaledDelta_of_finite_ne_one 0 he (by norm_num), mul_f64_finite, hc]
    rw [Duration.as_secs]
    norm_num
  rw [Time.advance_with_raw_delta, hs]
  rfl

/-- A default virtual clock whose relative speed is `NaN`. -/
def nanSpeed : Time Virtual :=
  { Time.defaultVirtual with context := { Virtual.default with relative_speed := F64.nan } }

/-- The state the default virtual clock reaches after `advance_with_raw_delta 100`. -/
def dvAdvanced : Time Virtual :=
  Time.advance_by
    { Time.defaultVirtual with
      context :=
        { Time.defaultVirtual.context with effective_speed := Time.defaultVirtual.effSpeed } }
    100

lemma dv_advance : Time.defaultVirtual.advance_with_raw_delta 100 = some dvAdvanced := by
  rw [Time.advance_with_raw_delta, @scaledDelta_of_effOne Time.defaultVirtual 100 rfl]
  rfl

lemma dv_fit : 1 * (Time.defaultVirtual.clamped 9).as_secs < 2 ^ 64 := by
  have h : Time.defaultVirtual.clamped 9 = 9 := rfl
  rw [h, Duration.as_secs]
  norm_num

/-! ## Claims about the virtual and real clocks -/

/-- C1 (amended): for every `advance_with_raw_delta` call from any state whose
clock is paused or whose `relative_speed` is a finite value at most `1`, the
stored delta never exceeds `max_delta`.  (As stated over arbitrary
`relative_speed` values the claim is false — see the counterexample at
relative speed `2.0`, where the stored delta is twice `max_delta`.) -/
theorem claim_C1 (t : Time Virtual) (raw : Duration) (t' : Time Virtual)
    (hs : t.context.paused = true ∨
      ∃ q, t.context.relative_speed = F64.finite q ∧ q ≤ 1)
    (h : t.advance_with_raw_delta raw = some t') :
    t'.delta ≤ t.context.max_delta := by
  rcases (advance_eq_some_iff t raw t').1 h with ⟨d, hd, ht'⟩
  subst ht'
  show d ≤ t.context.max_delta
  obtain ⟨q', hq', hq'le⟩ : ∃ q', t.effSpeed = F64.finite q' ∧ q' ≤ 1 := by
    by_cases hp : t.context.paused = true
    · exact ⟨0, effSpeed_of_paused hp, by norm_num⟩
    · have hp' : t.context.paused = false := by revert hp; cases t.context.paused <;> simp
      rcases hs with hs | ⟨q, hqe, hqle⟩
      · rw [hp'] at hs; cases hs
      · exact ⟨q, (effSpeed_of_unpaused hp').trans hqe, hqle⟩
  by_cases h1 : q' = 1
  · rw [scaledDelta_of_effOne raw (h1 ▸ hq')] at hd
    injection hd with hd'
    rw [← hd']
    exact clamped_le_max t raw
  · rw [scaledDelta_of_finite_ne_one raw hq' h1, mul_f64_finite] at hd
    split at hd
    · exact absurd hd (by simp)
    · split at hd
      · exact absurd hd (by simp)
      · injection hd with hd'
        rw [← hd']
        have hle : q' * ((t.clamped raw : Nat) : Rat) ≤ ((t.clamped raw : Nat) : Rat) :=
          mul_le_of_le_one_left (Nat.cast_nonneg _) hq'le
        exact le_trans (Int.toNat_le.mpr (round_le_natCast hle)) (clamped_le_max t raw)

/-- C1 witness: the amended theorem applied to the default clock (relative
speed `1`) advancing by `100` nanoseconds. -/
theorem claim_C1_witness :
    (Time.defaultVirtual.context.paused = true ∨
      ∃ q, Time.defaultVirtual.context.relative_speed = F64.finite q ∧ q ≤ 1) ∧
    Time.defaultVirtual.advance_with_raw_delta 100 = some dvAdvanced ∧
    dvAdvanced.delta ≤ Time.defaultVirtual.context.max_delta :=
  ⟨Or.inr ⟨1, rfl, le_refl 1⟩, dv_advance,
    claim_C1 Time.defaultVirtual 100 dvAdvanced (Or.inr ⟨1, rfl, le_refl 1⟩) dv_advance⟩

/-- C1 counterexample: at relative speed `2.0`, feeding a raw delta equal to
`max_delta` (250 ms) stores a delta of 500 ms, strictly greater than
`max_delta` — refuting the claim for arbitrary `relative_speed` values. -/
theorem claim_C1_counterexample :
    speedTwo.advance_with_raw_delta 250000000 = some speedTwoAdvanced ∧
    speedTwo.context.max_delta < speedTwoAdvanced.delta :=
  ⟨speedTwo_advance, by decide⟩

/-- C3 (amended): after every successful `advance_with_raw_delta` call, the
stored `effective_speed` is `0` if and only if the clock is paused or its
`relative_speed` is `0`.  (The claim's unqualified "iff paused" is false: an
unpaused clock with `relative_speed = 0` also stores `effective_speed = 0`;
see the counterexample.) -/
theorem claim_C3 (t : Time Virtual) (raw : Duration) (t' : Time Virtual)
    (h : t.advance_with_raw_delta raw = some t') :
    (t'.context.effective_speed = F64.finite 0 ↔
      (t.context.paused = true ∨ t.context.relative_speed = F64.finite 0)) := by
  rcases (advance_eq_some_iff t raw t').1 h with ⟨d, _, ht'⟩
  subst ht'
  show t.effSpeed = F64.finite 0 ↔
    (t.context.paused = true ∨ t.context.relative_speed = F64.finite 0)
  rw [Time.effSpeed]
  by_cases hp : t.context.paused = true
  · simp [hp]
  · have hp' : t.context.paused = false := by revert hp; cases t.context.paused <;> simp
    simp [hp']

/-- C3 witness: the amended theorem applied to the paused default clock. -/
theorem claim_C3_witness :
    pausedTime.advance_with_raw_delta 5 = some pausedAdvanced ∧
    (pausedAdvanced.context.effective_speed = F64.finite 0 ↔
      (pausedTime.context.paused = true ∨ pausedTime.context.relative_speed = F64.finite 0)) :=
  ⟨pausedTime_advance, claim_C3 pausedTime 5 pausedAdvanced pausedTime_advance⟩

/-- C3 counterexample: an unpaused clock with `relative_speed = 0.0` stores
`effective_speed = 0` after advancing, refuting "`effective_speed == 0` only
if paused". -/
theorem claim_C3_counterexample :
    speedZero.context.paused = false ∧
    speedZero.advance_with_raw_delta 0 = some speedZeroAdvanced ∧
    speedZeroAdvanced.context.effective_speed = F64.finite 0 :=
  ⟨rfl, speedZero_advance, rfl⟩

/-- C6 (confirmed): whenever the clock is paused, `advance_with_raw_delta`
succeeds and stores a delta of zero (and a zero seconds cache), for every raw
delta and every `relative_speed` value. -/
theorem claim_C6 (t : Time Virtual) (raw : Duration) (hp : t.context.paused = true) :
    ∃ t', t.advance_with_raw_delta raw = some t' ∧ t'.delta = 0 ∧ t'.delta_seconds = 0 := by
  refine ⟨_, (advance_eq_some_iff t raw _).2
    ⟨0, scaledDelta_of_effZero raw (effSpeed_of_paused hp), rfl⟩, rfl, ?_⟩
  show Duration.as_secs 0 = 0
  rw [Duration.as_secs]
  norm_num

/-- C6 witness: the paused default clock advancing by `123` nanoseconds. -/
theorem claim_C6_witness :
    pausedTime.context.paused = true ∧
    ∃ t', pausedTime.advance_with_raw_delta 123 = some t' ∧
      t'.delta = 0 ∧ t'.delta_seconds = 0 :=
  ⟨rfl, claim_C6 pausedTime 123 rfl⟩

/-- C7 (confirmed): on an unpaused clock with `relative_speed` exactly `1.0`,
`advance_with_raw_delta` succeeds and stores exactly the clamped raw delta
`min raw max_delta` — the scaling branch is skipped, so no rounding is
applied. -/
theorem claim_C7 (t : Time Virtual) (raw : Duration) (hp : t.context.paused = false)
    (hs : t.context.relative_speed = F64.finite 1) :
    ∃ t', t.advance_with_raw_delta raw = some t' ∧
      t'.delta = min raw t.context.max_delta ∧
      t'.context.effective_speed = F64.finite 1 := by
  have he : t.effSpeed = F64.finite 1 := by rw [effSpeed_of_unpaused hp, hs]
  refine ⟨_, (advance_eq_some_iff t raw _).2 ⟨_, scaledDelta_of_effOne raw he, rfl⟩, ?_, ?_⟩
  · show t.clamped raw = _
    exact clamped_eq_min t raw
  · show t.effSpeed = _
    exact he

/-- C7 witness: the default clock (speed `1`) advancing by 300 ms, which is
clamped to `max_delta` = 250 ms. -/
theorem claim_C7_witness :
    Time.defaultVirtual.context.paused = false ∧
    Time.defaultVirtual.context.relative_speed = F64.finite 1 ∧
    ∃ t', Time.defaultVirtual.advance_with_raw_delta 300000000 = some t' ∧
      t'.delta = min 300000000 Time.defaultVirtual.context.max_delta ∧
      t'.context.effective_speed = F64.finite 1 :=
  ⟨rfl, rfl, claim_C7 Time.defaultVirtual 300000000 rfl rfl⟩

/-- First tick of a fresh real clock. -/
def realTick1 (start t0 : Nat) : Time Real :=
  (Time.defaultReal start).update_with_instant t0

/-- Second tick of a fresh real clock. -/
def realTick2 (start t0 t1 : Nat) : Time Real :=
  (realTick1 start t0).update_with_instant t1

/-- Third tick of a fresh real clock. -/
def realTick3 (start t0 t1 t2 : Nat) : Time Real :=
  (realTick2 start t0 t1).update_with_instant t2

/-- C8 (confirmed): for strictly increasing timestamps `t0 < t1 < t2`, three
successive `update_with_instant` calls on a fresh real clock leave the delta
at zero on the first call while recording `t0` as both first and last update,
then store deltas `t1 - t0` and `t2 - t1`, each call updating the
last-observed timestamp. -/
theorem claim_C8 (start t0 t1 t2 : Nat) (h01 : t0 < t1) (h12 : t1 < t2) :
    (realTick1 start t0).delta = 0 ∧
    (realTick1 start t0).context.first_update = some t0 ∧
    (realTick1 start t0).context.last_update = some t0 ∧
    (realTick2 start t0 t1).delta + t0 = t1 ∧
    (realTick2 start t0 t1).context.last_update = some t1 ∧
    (realTick3 start t0 t1 t2).delta + t1 = t2 ∧
    (realTick3 start t0 t1 t2).context.last_update = some t2 := by
  have e2 : (realTick2 start t0 t1).delta = t1 - t0 := rfl
  have e3 : (realTick3 start t0 t1 t2).delta = t2 - t1 := rfl
  refine ⟨rfl, rfl, rfl, ?_, rfl, ?_, rfl⟩
  · rw [e2]; exact Nat.sub_add_cancel (le_of_lt h01)
  · rw [e3]; exact Nat.sub_add_cancel (le_of_lt h12)

/-- C8 witness: timestamps `1 < 2 < 3` from startup `0`. -/
theorem claim_C8_witness :
    (1 < 2 ∧ 2 < 3) ∧
    ((realTick1 0 1).delta = 0 ∧
      (realTick1 0 1).context.first_update = some 1 ∧
      (realTick1 0 1).context.last_update = some 1 ∧
      (realTick2 0 1 2).delta + 1 = 2 ∧
      (realTick2 0 1 2).context.last_update = some 2 ∧
      (realTick3 0 1 2 3).delta + 2 = 3 ∧
      (realTick3 0 1 2 3).context.last_update = some 3) :=
  ⟨⟨by decide, by decide⟩, claim_C8 0 1 2 3 (by decide) (by decide)⟩

/-- C10 (amended): on an unpaused clock, `advance_with_raw_delta` panics when
`relative_speed` is `NaN` or `±∞`, or is a negative finite value with a
nonzero clamped delta; and it never panics when `relative_speed` is finite
and nonnegative and the scaled delta fits in a `Duration`.  (The claim's
"panics whenever `relative_speed` is negative" is refuted at raw delta `0`:
the IEEE product is `-0.0`, which `from_secs_f64` accepts — see the
counterexample.) -/
theorem claim_C10 :
    (∀ (t : Time Virtual) (raw : Duration),
        t.context.paused = false →
        (t.context.relative_speed = F64.nan ∨ t.context.relative_speed = F64.inf ∨
          t.context.relative_speed = F64.neginf ∨
          ∃ q, t.context.relative_speed = F64.finite q ∧ q < 0 ∧ t.clamped raw ≠ 0) →
        t.advance_with_raw_delta raw = none) ∧
    (∀ (t : Time Virtual) (raw : Duration) (q : Rat),
        t.context.relative_speed = F64.finite q → 0 ≤ q →
        q * (t.clamped raw).as_secs < 2 ^ 64 →
        ∃ t', t.advance_with_raw_delta raw = some t') := by
  constructor
  · intro t raw hp hcase
    have he : t.effSpeed = t.context.relative_speed := effSpeed_of_unpaused hp
    rw [Time.advance_with_raw_delta, Option.map_eq_none']
    rcases hcase with hr | hr | hr | ⟨q, hr, hq, hcl⟩
    · rw [Time.scaledDelta, he, hr]
      exact mul_f64_nan _
    · rw [Time.scaledDelta, he, hr]
      exact mul_f64_inf _
    · rw [Time.scaledDelta, he, hr]
      exact mul_f64_neginf _
    · have h1 : q ≠ 1 := by intro hq1; rw [hq1] at hq; norm_num at hq
      rw [scaledDelta_of_finite_ne_one raw (he.trans hr) h1, mul_f64_finite]
      have hneg : q * (t.clamped raw).as_secs < 0 :=
        mul_neg_of_neg_of_pos hq (as_secs_pos hcl)
      by_cases hA : q * (t.clamped raw).as_secs < -(2 ^ 64 : Rat) ∨
          (2 ^ 64 : Rat) ≤ q * (t.clamped raw).as_secs
      · rw [if_pos hA]
      · rw [if_neg hA, if_pos hneg]
  · intro t raw q hr hq hfit
    by_cases hp : t.context.paused = true
    · exact ⟨_, (advance_eq_some_iff t raw _).2
        ⟨0, scaledDelta_of_effZero raw (effSpeed_of_paused hp), rfl⟩⟩
    · have hp' : t.context.paused = false := by revert hp; cases t.context.paused <;> simp
      have he : t.effSpeed = F64.finite q := (effSpeed_of_unpaused hp').trans hr
      by_cases h1 : q = 1
      · exact ⟨_, (advance_eq_some_iff t raw _).2
          ⟨_, scaledDelta_of_effOne raw (h1 ▸ he), rfl⟩⟩
      · have h0 : 0 ≤ q * (t.clamped raw).as_secs := mul_nonneg hq (as_secs_nonneg _)
        have hA : ¬(q * (t.clamped raw).as_secs < -(2 ^ 64 : Rat) ∨
            (2 ^ 64 : Rat) ≤ q * (t.clamped raw).as_secs) := by
          push_neg
          exact ⟨by linarith, hfit⟩
        have hs : t.scaledDelta raw =
            some (round (q * ((t.clamped raw : Nat) : Rat))).toNat := by
          rw [scaledDelta_of_finite_ne_one raw he h1, mul_f64_finite,
            if_neg hA, if_neg (not_lt.mpr h0)]
        exact ⟨_, (advance_eq_some_iff t raw _).2 ⟨_, hs, rfl⟩⟩

/-- C10 witness: the panic half applied to a `NaN` relative speed, and the
no-panic half applied to the default clock at speed `1`. -/
theorem claim_C10_witness :
    (nanSpeed.context.paused = false ∧ nanSpeed.advance_with_raw_delta 9 = none) ∧
    (Time.defaultVirtual.context.relative_speed = F64.finite 1 ∧ (0 : Rat) ≤ 1 ∧
      1 * (Time.defaultVirtual.clamped 9).as_secs < 2 ^ 64 ∧
      ∃ t', Time.defaultVirtual.advance_with_raw_delta 9 = some t') :=
  ⟨⟨rfl, claim_C10.1 nanSpeed 9 rfl (Or.inl rfl)⟩,
    ⟨rfl, by norm_num, dv_fit,
      claim_C10.2 Time.defaultVirtual 9 1 rfl (by norm_num) dv_fit⟩⟩

/-- C10 counterexample: with `paused = false`, `relative_speed = -1.0` and a
raw delta of `0`, `advance_with_raw_delta` does not panic: the product
`-1.0 * 0.0 = -0.0` passes `from_secs_f64`, so the call succeeds — refuting
"panics whenever `relative_speed` is negative". -/
theorem claim_C10_counterexample :
    negSpeed.context.paused = false ∧
    negSpeed.context.relative_speed = F64.finite (-1) ∧ ((-1 : Rat) < 0) ∧
    negSpeed.advance_with_raw_delta 0 = some negSpeedAdvanced :=
  ⟨rfl, rfl, by norm_num, negSpeed_advance⟩

/-! ## Lemmas about the input latch -/

lemma drainDownQueue_spec {α : Type} [BEq α] (q downs press : List α) :
    drainDownQueue q downs press =
      (downs ++ q,
        q.foldl (fun p k => if p.contains k then p else p ++ [k]) press) := by
  induction q generalizing downs press with
  | nil => simp [drainDownQueue]
  | cons k rest ih => simp [drainDownQueue, ih]

lemma drainUpQueue_spec {α : Type} [BEq α] (q ups press : List α) :
    drainUpQueue q ups press =
      (ups ++ q, q.foldl (fun p k => p.filter (fun x => x != k)) press) := by
  induction q generalizing ups press with
  | nil => simp [drainUpQueue]
  | cons k rest ih => simp [drainUpQueue, ih]

lemma pressAdd_nodup {α : Type} [BEq α] [LawfulBEq α] {p : List α} (h : p.Nodup) (k : α) :
    (if p.contains k then p else p ++ [k]).Nodup := by
  split
  · exact h
  · next hc =>
    have hk : k ∉ p := by
      intro hmem
      exact hc (List.elem_eq_true_of_mem hmem)
    simp [List.nodup_append, h, hk]

lemma foldl_pressAdd_nodup {α : Type} [BEq α] [LawfulBEq α] (q : List α) {p : List α}
    (h : p.Nodup) :
    (q.foldl (fun p k => if p.contains k then p else p ++ [k]) p).Nodup := by
  induction q generalizing p with
  | nil => exact h
  | cons k rest ih => exact ih (pressAdd_nodup h k)

lemma foldl_filter_nodup {α : Type} [BEq α] (q : List α) {p : List α} (h : p.Nodup) :
    (q.foldl (fun p k => p.filter (fun x => x != k)) p).Nodup := by
  induction q generalizing p with
  | nil => exact h
  | cons k rest ih => exact ih (List.Nodup.filter _ h)

/-! ## Claims about the input latch and key queries -/

/-- C4 (confirmed): the frame latch `recieve_inputs` clears `key_down` and
`key_up`, drains the key-down queue entirely — each code is appended to
`key_down` and added to `key_press` only when not already a member, so a code
pushed twice in one frame appears once — then drains the key-up queue
entirely, appending each code to `key_up` and removing all its occurrences
from `key_press`. -/
theorem claim_C4 (i : Input) :
    (recieve_inputs i).key_down = i.key_down_queue ∧
    (recieve_inputs i).key_up = i.key_up_queue ∧
    (recieve_inputs i).key_press =
      i.key_up_queue.foldl (fun p k => p.filter (fun x => x != k))
        (i.key_down_queue.foldl (fun p k => if p.contains k then p else p ++ [k])
          i.key_press) ∧
    (recieve_inputs i).key_down_queue = [] ∧
    (recieve_inputs i).key_up_queue = [] ∧
    (i.key_press.Nodup → (recieve_inputs i).key_press.Nodup) := by
  refine ⟨?_, ?_, ?_, rfl, rfl, ?_⟩
  · simp [recieve_inputs, drainDownQueue_spec]
  · simp [recieve_inputs, drainDownQueue_spec, drainUpQueue_spec]
  · simp [recieve_inputs, drainDownQueue_spec, drainUpQueue_spec]
  · intro h
    show (drainUpQueue i.key_up_queue []
        (drainDownQueue i.key_down_queue [] i.key_press).2).2.Nodup
    rw [drainDownQueue_spec, drainUpQueue_spec]
    exact foldl_filter_nodup _ (foldl_pressAdd_nodup _ h)

/-- A concrete input state with a doubled key-down event, for the C4 witness. -/
def c4Input : Input :=
  { Input.default with key_down_queue := [3, 3, 7], key_up_queue := [7], key_press := [9] }

/-- C4 witness: the latch applied to a state whose down queue holds the code
`3` twice; the press set stays duplicate-free. -/
theorem claim_C4_witness :
    c4Input.key_press.Nodup ∧ (recieve_inputs c4Input).key_press.Nodup ∧
    (recieve_inputs c4Input).key_down = c4Input.key_down_queue :=
  ⟨by decide, (claim_C4 c4Input).2.2.2.2.2 (by decide), (claim_C4 c4Input).1⟩

/-- C5 (confirmed): from any quiescent input state (empty key queues, no held
keys), sending `set_key_down k` then `set_key_up k` and latching one frame
makes `is_key_down` and `is_key_up` report `true` while `is_key_pressed`
reports `false` — a same-frame tap is observable but leaves no held state. -/
theorem claim_C5 (fs : Nat → PhysicalKey) (i : Input) (k : Nat) (kc : KeyCode)
    (hfs : fs k = PhysicalKey.code kc)
    (hdq : i.key_down_queue = []) (huq : i.key_up_queue = []) (hpr : i.key_press = []) :
    (recieve_inputs ((i.set_key_down k).set_key_up k)).is_key_down fs kc = some true ∧
    (recieve_inputs ((i.set_key_down k).set_key_up k)).is_key_up fs kc = some true ∧
    (recieve_inputs ((i.set_key_down k).set_key_up k)).is_key_pressed fs kc = some false := by
  have h1 : (recieve_inputs ((i.set_key_down k).set_key_up k)).key_down = [k] := by
    simp [recieve_inputs, Input.set_key_down, Input.set_key_up, hdq, drainDownQueue_spec]
  have h2 : (recieve_inputs ((i.set_key_down k).set_key_up k)).key_up = [k] := by
    simp [recieve_inputs, Input.set_key_down, Input.set_key_up, huq,
      drainDownQueue_spec, drainUpQueue_spec]
  have h3 : (recieve_inputs ((i.set_key_down k).set_key_up k)).key_press = [] := by
    simp [recieve_inputs, Input.set_key_down, Input.set_key_up, hdq, huq, hpr,
      drainDownQueue_spec, drainUpQueue_spec]
  refine ⟨?_, ?_, ?_⟩
  · rw [Input.is_key_down, h1, keyQueryLoop, hfs]
    simp [get_keycode_from_physical_key]
  · rw [Input.is_key_up, h2, keyQueryLoop, hfs]
    simp [get_keycode_from_physical_key]
  · rw [Input.is_key_pressed, h3, keyQueryLoop]

/-- An identity scancode table for witnesses: every raw code is recognised. -/
def idScancode : Nat → PhysicalKey := fun n => PhysicalKey.code n

/-- C5 witness: a tap of code `7` from the default input state under an
identity scancode table. -/
theorem claim_C5_witness :
    idScancode 7 = PhysicalKey.code 7 ∧
    Input.default.key_down_queue = [] ∧ Input.default.key_up_queue = [] ∧
    Input.default.key_press = [] ∧
    ((recieve_inputs ((Input.default.set_key_down 7).set_key_up 7)).is_key_down
        idScancode 7 = some true ∧
      (recieve_inputs ((Input.default.set_key_down 7).set_key_up 7)).is_key_up
        idScancode 7 = some true ∧
      (recieve_inputs ((Input.default.set_key_down 7).set_key_up 7)).is_key_pressed
        idScancode 7 = some false) :=
  ⟨rfl, rfl, rfl, rfl, claim_C5 idScancode Input.default 7 7 rfl rfl rfl rfl⟩

/-- C9 (confirmed): latching twice with no events enqueued in between leaves
`key_down` and `key_up` empty after the second latch and leaves `key_press`
exactly as the first latch produced it. -/
theorem claim_C9 (i : Input) :
    (recieve_inputs (recieve_inputs i)).key_down = [] ∧
    (recieve_inputs (recieve_inputs i)).key_up = [] ∧
    (recieve_inputs (recieve_inputs i)).key_press = (recieve_inputs i).key_press :=
  ⟨rfl, rfl, rfl⟩

/-- C2 (amended): translation of an unmapped physical key does not signal a
recoverable `LookupFailure`; it panics (`panic!("KeyCode not found!")`,
modelled as `none`), terminating the process, and a panic hit while scanning
`key_down` propagates out of `is_key_down` instead of dropping the offending
event. -/
theorem claim_C2 :
    (∀ n, get_keycode_from_physical_key (PhysicalKey.unidentified n) = none) ∧
    (∀ (fs : Nat → PhysicalKey) (i : Input) (key : KeyCode) (k : Nat) (rest : List Nat),
        i.key_down = k :: rest → get_keycode_from_physical_key (fs k) = none →
        i.is_key_down fs key = none) := by
  refine ⟨fun n => rfl, ?_⟩
  intro fs i key k rest hkd hget
  rw [Input.is_key_down, hkd, keyQueryLoop, hget]

/-- A latched input state holding one raw key-down code `5`, for C2. -/
def badInput : Input := { Input.default with key_down := [5] }

/-- A scancode table that recognises nothing, for C2. -/
def noScancode : Nat → PhysicalKey := fun n => PhysicalKey.unidentified n

/-- C2 witness: the amended theorem applied to the unmapped raw code `5` held
in `badInput` under the empty scancode table. -/
theorem claim_C2_witness :
    get_keycode_from_physical_key (PhysicalKey.unidentified 0) = none ∧
    badInput.key_down = 5 :: [] ∧
    get_keycode_from_physical_key (noScancode 5) = none ∧
    badInput.is_key_down noScancode 3 = none :=
  ⟨claim_C2.1 0, rfl, rfl, claim_C2.2 noScancode badInput 3 5 [] rfl rfl⟩

/-- C2 counterexample: at the concrete unmapped key `Unidentified 7`,
translation panics (`none`) instead of yielding a recoverable
`LookupFailure`, and the whole `is_key_down` query over `badInput` aborts
with that panic (`none`) instead of dropping the event and answering —
refuting "the failure ... never terminates the frame loop or the process". -/
theorem claim_C2_counterexample :
    get_keycode_from_physical_key (PhysicalKey.unidentified 7) = none ∧
    badInput.is_key_down (fun _ => PhysicalKey.unidentified 7) 3 = none :=
  ⟨rfl, rfl⟩

end Bella

